import Mathlib

/-
Verification of the Estoque Leigo inventory backend (src/backend/app):
a shallow embedding of the product catalog, the movement ledger and the
CSV import reconciliation engine, together with theorems settling the
specification claims about them.

Conventions of the embedding:
- The relational store is a pure value of type `Db`; each endpoint is a
  pure function from the current `Db` (plus its request data) to the new
  `Db` and a response, errors going through `Except`.
- Python `int` columns constrained to be nonnegative are `Nat`; the
  `Decimal` money columns are `Rat` (exact, not floating point).
- Pydantic primitive coercion (string to int, string to decimal) is an
  external collaborator and is modelled at its interface by executable
  parsers (`String.toNat?`, `parseDecimal?`).
- A commit that raises `IntegrityError` because of a concurrent writer is
  modelled by an explicit oracle `conflictAt : Nat -> Bool` telling which
  CSV line's write fails; the sequential semantics itself never conflicts,
  so `noConflict` is the faithful single-writer run.
-/

namespace Estoque

/-- Python `str.strip()` at its interface: drop leading and trailing
whitespace characters. -/
def strTrim (s : String) : String :=
  ⟨((s.toList.dropWhile Char.isWhitespace).reverse.dropWhile Char.isWhitespace).reverse⟩

/-- The numeric value of a digit string. -/
def digitsVal (l : List Char) : Nat :=
  l.foldl (fun n c => 10 * n + (c.toNat - 48)) 0

/-- A nonempty, all-digits character list. -/
def isDigitStr (l : List Char) : Bool :=
  !l.isEmpty && l.all Char.isDigit

/-- Models the string-to-nonnegative-integer coercion performed by Pydantic
for the `quantity` and `min_stock` fields (interface model: a nonempty
digit string; anything else, signs and fractions included, is rejected —
a negative literal would in any case fail the `ge=0` constraint). -/
def parseNat? (s : String) : Option Nat :=
  if isDigitStr s.toList then some (digitsVal s.toList) else none

/-- Models the string-to-nonnegative-decimal coercion performed by Pydantic
for the `cost` and `price` fields (interface model: an unsigned integer
part, optionally followed by a dot and an unsigned fractional part). -/
def parseDecimal? (s : String) : Option ℚ :=
  let l := s.toList
  let intPart := l.takeWhile (fun c => c ≠ '.')
  let rest := l.dropWhile (fun c => c ≠ '.')
  match rest with
  | [] => if isDigitStr intPart then some ((digitsVal intPart : ℚ)) else none
  | _ :: frac =>
    if isDigitStr intPart && isDigitStr frac && !(frac.contains '.') then
      some ((digitsVal intPart : ℚ) + (digitsVal frac : ℚ) / (10 : ℚ) ^ frac.length)
    else none

/-- A row of the `products` table (models.py, class `Product`): surrogate id,
descriptive fields, stock fields, prices and creation timestamp. Timestamps
are abstracted to `Nat`. -/
@[ext]
structure Product where
  id : Nat
  name : String
  sku : String
  category : String
  supplier : String
  quantity : Nat
  min_stock : Nat
  cost : ℚ
  price : ℚ
  created_at : Nat
deriving Repr, DecidableEq

/-- Movement type (models.py `Movement.type`, schemas.py `MovementCreate.type`):
`entry` or `exit`. -/
inductive MoveType where
  | entry
  | exit
deriving Repr, DecidableEq

/-- A row of the `movements` table (models.py, class `Movement`). -/
@[ext]
structure Movement where
  id : Nat
  product_id : Nat
  type : MoveType
  quantity : Nat
  occurred_at : Nat
  note : String
deriving Repr, DecidableEq

/-- The relational store: the `products` and `movements` tables, the
autoincrement counters, and the current clock used for defaulted
timestamps. -/
@[ext]
structure Db where
  products : List Product
  movements : List Movement
  nextProductId : Nat
  nextMovementId : Nat
  now : Nat
deriving Repr, DecidableEq

/-- Error taxonomy of the HTTP layer (spec section 7): 404, 409, 400/422 and
the business-rule 400, plus the 500 produced when a handler raises an
unhandled exception (such as a response-model validation failure). -/
inductive ApiError where
  | notFound
  | conflict
  | invalidInput
  | invalidOperation
  | internal
deriving Repr, DecidableEq

/-- Well-formedness of the store, maintained by every operation: ids are
pairwise distinct, `sku` is unique across products (the storage-layer unique
constraint of models.py line 30), and the autoincrement counter is above
every live id. -/
structure Db.Wf (db : Db) : Prop where
  ids_nodup : (db.products.map Product.id).Nodup
  skus_nodup : (db.products.map Product.sku).Nodup
  ids_lt : ∀ p ∈ db.products, p.id < db.nextProductId

/-! ## Movement ledger

The movement endpoints (`POST /api/products/{id}/movements` and its list
companion) are referenced by the repository's tests
(tests/test_movements.py) but their handler code is not present under
src/backend/app; the ledger operation below is therefore modelled from the
specification. -/

/-- Modelled from the spec: the record-movement operation of section 4.1
(the `POST /api/products/{id}/movements` handler, absent from src). The
product must exist (else NotFound); the amount must be at least 1 (else
InvalidInput); an entry adds to the stock; an exit computes
`new_quantity = quantity_before - quantity` and fails with
InvalidOperation when that is negative, mutating nothing; otherwise the
product quantity and the appended ledger row commit together. -/
def recordMovement (db : Db) (pid : Nat) (ty : MoveType) (qty : Nat)
    (occurred : Option Nat) (note : String) : Db × Except ApiError Movement :=
  if qty < 1 then (db, .error .invalidInput)
  else
    match db.products.find? (fun p => p.id == pid) with
    | none => (db, .error .notFound)
    | some p =>
      match ty with
      | .entry =>
        let m : Movement :=
          ⟨db.nextMovementId, pid, .entry, qty, occurred.getD db.now, note⟩
        ({ db with
            products := db.products.map
              (fun q => if q.id == pid then { q with quantity := q.quantity + qty } else q),
            movements := db.movements ++ [m],
            nextMovementId := db.nextMovementId + 1 },
         .ok m)
      | .exit =>
        let newQuantity : Int := (p.quantity : Int) - (qty : Int)
        if newQuantity < 0 then (db, .error .invalidOperation)
        else
          let m : Movement :=
            ⟨db.nextMovementId, pid, .exit, qty, occurred.getD db.now, note⟩
          ({ db with
              products := db.products.map
                (fun q => if q.id == pid then { q with quantity := newQuantity.toNat } else q),
              movements := db.movements ++ [m],
              nextMovementId := db.nextMovementId + 1 },
           .ok m)

/-! ## Product response schema (`_to_product_out` and `ProductOut`) -/

/-- Field names of the `ProductOut` response model (schemas.py lines 47-58);
every one of them is declared without a default value, so Pydantic treats
each as required at construction time. -/
def productOutRequiredFields : List String :=
  ["id", "name", "sku", "category", "supplier", "quantity", "min_stock",
   "low_stock", "cost", "price", "created_at"]

/-- The keyword arguments that `_to_product_out` (main.py lines 77-89)
passes when constructing `ProductOut` from a catalog row. -/
def toProductOutPassedFields : List String :=
  ["id", "name", "sku", "category", "supplier", "quantity", "min_stock",
   "cost", "price", "created_at"]

/-- Pydantic model construction succeeds only when every required field of
the model is among the supplied keyword arguments. -/
def pydanticFieldsOk (required passed : List String) : Bool :=
  required.all (fun f => passed.contains f)

/-- The low-stock flag of the specification: quantity at or below the
minimum-stock threshold. -/
def lowStockFlag (p : Product) : Bool :=
  p.quantity ≤ p.min_stock

/-! ## Partial product update (`update_product`, main.py lines 146-167) -/

/-- The `ProductUpdate` patch schema (schemas.py lines 36-44): every field
optional; `none` models a field the caller did not supply, which
`model_dump(exclude_unset=True)` omits so the stored value is kept. -/
structure ProductUpdate where
  name : Option String := none
  sku : Option String := none
  category : Option String := none
  supplier : Option String := none
  quantity : Option Nat := none
  min_stock : Option Nat := none
  cost : Option ℚ := none
  price : Option ℚ := none
deriving Repr, DecidableEq

/-- The `setattr` loop of `update_product` (main.py lines 156-158): each
supplied field overwrites the stored one; `id` and `created_at` are not in
the patch schema and pass through. -/
def applyUpdate (p : Product) (u : ProductUpdate) : Product :=
  { p with
    name := u.name.getD p.name,
    sku := u.sku.getD p.sku,
    category := u.category.getD p.category,
    supplier := u.supplier.getD p.supplier,
    quantity := u.quantity.getD p.quantity,
    min_stock := u.min_stock.getD p.min_stock,
    cost := u.cost.getD p.cost,
    price := u.price.getD p.price }

/-- `PUT /api/products/{product_id}` (main.py lines 146-167): 404 when the
id is unknown; otherwise apply the supplied fields and commit, a uniqueness
violation on `sku` rolling back to the prior state with a 409. -/
def update_product (db : Db) (pid : Nat) (u : ProductUpdate) :
    Db × Except ApiError Product :=
  match db.products.find? (fun p => p.id == pid) with
  | none => (db, .error .notFound)
  | some p =>
    let p' := applyUpdate p u
    if db.products.any (fun q => q.sku == p'.sku && q.id != p.id) then
      (db, .error .conflict)
    else
      ({ db with products := db.products.map (fun q => if q.id == pid then p' else q) },
       .ok p')

/-! ## Product list (`list_products`, main.py lines 112-134) -/

/-- The `order_by` query parameter (schemas.py line 77). -/
inductive OrderBy where
  | name
  | quantity
deriving Repr, DecidableEq

/-- The `order_dir` query parameter (schemas.py line 78). -/
inductive OrderDir where
  | asc
  | desc
deriving Repr, DecidableEq

/-- The query parameters accepted by `list_products` (main.py lines
113-119): optional `search`, `category` and `supplier` strings plus the two
ordering parameters. An absent parameter is `none`; Python treats the empty
string as absent too (`if search:`). -/
structure ListQuery where
  search : Option String := none
  category : Option String := none
  supplier : Option String := none
  order_by : OrderBy := .name
  order_dir : OrderDir := .asc
deriving Repr, DecidableEq

/-- SQL `ILIKE %pat%`: case-insensitive substring containment (the pattern
built at main.py line 123). -/
def likeContains (hay pat : String) : Bool :=
  decide (pat.toLower.toList <:+: hay.toLower.toList)

/-- The WHERE clauses of `list_products` (main.py lines 122-128): substring
filter over `name` OR `sku`, exact filters on `category` and `supplier`,
composed with AND; a `none` or empty parameter imposes no restriction. -/
def matchesQuery (q : ListQuery) (p : Product) : Bool :=
  (match q.search with
   | none => true
   | some s => if s = "" then true else likeContains p.name s || likeContains p.sku s)
  && (match q.category with
      | none => true
      | some c => if c = "" then true else p.category == c)
  && (match q.supplier with
      | none => true
      | some s => if s = "" then true else p.supplier == s)

/-- The ORDER BY clause of `list_products` (main.py lines 130-131): by
`name` or by `quantity`, ascending or descending. -/
def productLe (q : ListQuery) (a b : Product) : Bool :=
  match q.order_by, q.order_dir with
  | .name, .asc => decide (a.name ≤ b.name)
  | .name, .desc => decide (b.name ≤ a.name)
  | .quantity, .asc => decide (a.quantity ≤ b.quantity)
  | .quantity, .desc => decide (b.quantity ≤ a.quantity)

/-- The rows selected by the query that `list_products` builds and runs
(main.py lines 121-133): filter the catalog by the optional search /
category / supplier parameters, then sort. This is the state of the
response before the marshalling of line 134. -/
def list_products_rows (q : ListQuery) (db : Db) : List Product :=
  (db.products.filter (matchesQuery q)).mergeSort (productLe q)

/-- `GET /api/products`, the full handler (main.py lines 112-134): run the
query, then marshal every selected row through `_to_product_out`
(line 134), whose `ProductOut` construction Pydantic rejects because the
required `low_stock` field is not among the passed arguments (the defect
established for C2). An empty selection therefore marshals to the empty
response, and any nonempty selection raises on its first row, surfacing
as an internal error. -/
def list_products (q : ListQuery) (db : Db) : Except ApiError (List Product) :=
  if (list_products_rows q db).all
      (fun _ => pydanticFieldsOk productOutRequiredFields toProductOutPassedFields) then
    .ok (list_products_rows q db)
  else
    .error .internal

/-! ## CSV import (`import_products_csv`, main.py lines 235-369) -/

/-- The required CSV header set (main.py lines 181-190). -/
def CSV_HEADERS : List String :=
  ["sku", "name", "category", "supplier", "quantity", "cost", "price", "min_stock"]

/-- One parsed data row of the uploaded CSV, after `_parse_csv_upload`
(main.py lines 221-233) has trimmed keys and values: each field holds what
`row.get(key, default)` returns in the loop body (main.py lines 263-277). -/
structure RawRow where
  sku : String := ""
  name : String := ""
  category : String := ""
  supplier : String := ""
  quantity : String := "0"
  cost : String := "0"
  price : String := "0"
  min_stock : String := "0"
deriving Repr, DecidableEq

/-- The coerced `ProductCreate` payload (schemas.py lines 25-33). -/
structure ProductCreate where
  name : String
  sku : String
  category : String
  supplier : String
  quantity : Nat
  min_stock : Nat
  cost : ℚ
  price : ℚ
deriving Repr, DecidableEq

/-- `ProductCreate.model_validate` on the payload dict built at main.py
lines 268-277: numeric coercion through the interface parsers plus the
field constraints of schemas.py lines 26-33 (name 1-200, sku 1-64,
category and supplier at most 100 chars, nonnegative numerics). Returns
`none` when Pydantic would raise. -/
def validateProductCreate (sku : String) (r : RawRow) : Option ProductCreate :=
  match parseNat? r.quantity, parseNat? r.min_stock, parseDecimal? r.cost, parseDecimal? r.price with
  | some q, some ms, some c, some pr =>
    if 1 ≤ r.name.length && r.name.length ≤ 200 && 1 ≤ sku.length && sku.length ≤ 64
        && r.category.length ≤ 100 && r.supplier.length ≤ 100 then
      some ⟨r.name, sku, r.category, r.supplier, q, ms, c, pr⟩
    else none
  | _, _, _, _ => none

/-- Row classification outcome (schemas: the `action` literal). -/
inductive RowAction where
  | create
  | update
  | skip
  | invalid
deriving Repr, DecidableEq

/-- A field-level error attached to a CSV row (schemas.py `CSVRowError`). -/
structure CSVRowError where
  field : String
  message : String
deriving Repr, DecidableEq

/-- A per-row result of the import preview (schemas.py
`ProductImportPreviewRow`). -/
structure PreviewRow where
  line : Nat
  sku : Option String
  action : RowAction
  errors : List CSVRowError
deriving Repr, DecidableEq

/-- The summary tally of the import (main.py line 258). -/
structure Summary where
  create : Nat := 0
  update : Nat := 0
  skip : Nat := 0
  invalid : Nat := 0
deriving Repr, DecidableEq

/-- Pointwise sum of two summaries. -/
def addSummary (a b : Summary) : Summary :=
  ⟨a.create + b.create, a.update + b.update, a.skip + b.skip, a.invalid + b.invalid⟩

/-- The `Product` row inserted by the import create branch (main.py lines
332-343): a fresh id, the coerced fields, and a defaulted creation
timestamp. -/
def productOfPayload (db : Db) (c : ProductCreate) : Product :=
  ⟨db.nextProductId, c.name, c.sku, c.category, c.supplier, c.quantity,
   c.min_stock, c.cost, c.price, db.now⟩

/-- The import update branch (main.py lines 345-352): overwrite name,
category, supplier, quantity, cost, price and min_stock with the coerced
fields; `sku`, `id` and `created_at` are left as stored. -/
def overwriteFromPayload (p : Product) (c : ProductCreate) : Product :=
  { p with
    name := c.name, category := c.category, supplier := c.supplier,
    quantity := c.quantity, cost := c.cost, price := c.price,
    min_stock := c.min_stock }

/-- The body of the per-row loop of `import_products_csv` (main.py lines
261-367) for one data row at CSV line `line`: empty-sku check, Pydantic
coercion, existence lookup, classification by mode ("create", "update",
anything else meaning upsert), error promotion to `invalid`, tally update,
and — when `apply` is set and the action writes — the catalog write, whose
commit fails with `IntegrityError` exactly when `conflictAt line` holds, in
which case the write is rolled back, the row is reclassified `invalid` with
an added `sku` error, and the tentative counter is decremented. Returns the
store after the row, the row's preview entry, and the row's net
contribution to the summary. -/
def importRow (mode : String) (apply : Bool) (conflictAt : Nat → Bool)
    (db : Db) (line : Nat) (r : RawRow) : Db × PreviewRow × Summary :=
  let sku := strTrim r.sku
  if sku = "" then
    (db, ⟨line, none, .invalid, [⟨"sku", "SKU é obrigatório"⟩]⟩, { invalid := 1 })
  else
    match validateProductCreate sku r with
    | none =>
      (db, ⟨line, some sku, .invalid, [⟨"row", "coerção de tipos falhou"⟩]⟩, { invalid := 1 })
    | some payload =>
      let existing := db.products.find? (fun p => p.sku == payload.sku)
      let step : RowAction × List CSVRowError :=
        if mode = "create" then
          match existing with
          | some _ => (.skip, [⟨"sku", "SKU já existe (modo create)"⟩])
          | none => (.create, [])
        else if mode = "update" then
          match existing with
          | some _ => (.update, [])
          | none => (.skip, [⟨"sku", "SKU não encontrado (modo update)"⟩])
        else
          match existing with
          | some _ => (.update, [])
          | none => (.create, [])
      if step.2 ≠ [] then
        (db, ⟨line, some payload.sku, .invalid, step.2⟩, { invalid := 1 })
      else
        let pr : PreviewRow := ⟨line, some payload.sku, step.1, []⟩
        let s : Summary :=
          if step.1 = .create then { create := 1 }
          else if step.1 = .update then { update := 1 }
          else { skip := 1 }
        if apply && (step.1 == .create || step.1 == .update) then
          let db' :=
            if step.1 = .create then
              { db with
                products := db.products ++ [productOfPayload db payload],
                nextProductId := db.nextProductId + 1 }
            else
              match existing with
              | some e =>
                { db with
                  products := db.products.map
                    (fun p => if p.id == e.id then overwriteFromPayload p payload else p) }
              | none => db
          if conflictAt line then
            (db,
             { pr with action := .invalid,
                       errors := pr.errors ++ [⟨"sku", "Conflito de SKU / integridade"⟩] },
             if step.1 = .create then
               { s with create := s.create - 1, invalid := s.invalid + 1 }
             else
               { s with update := s.update - 1, invalid := s.invalid + 1 })
          else (db', pr, s)
        else (db, pr, s)

/-- The per-row loop of `import_products_csv` over the remaining data rows,
threading the store strictly in input order (row N's write commits or fails
before row N+1 is looked at); `line` is the CSV line number of the first
remaining row (the loop starts at 2, the header being line 1). -/
def runImport (mode : String) (apply : Bool) (conflictAt : Nat → Bool)
    (db : Db) (line : Nat) : List RawRow → Db × List PreviewRow × Summary
  | [] => (db, [], {})
  | r :: rs =>
    let step := importRow mode apply conflictAt db line r
    let rest := runImport mode apply conflictAt step.1 (line + 1) rs
    (rest.1, step.2.1 :: rest.2.1, addSummary step.2.2 rest.2.2)

/-- The batch-level error of the import (main.py lines 248-255). -/
structure ImportError where
  error : String
  missing_headers : List String
  expected : List String
deriving Repr, DecidableEq

/-- The import response (schemas `ProductImportPreview`). -/
structure ImportPreview where
  headers : List String
  rows : List PreviewRow
  summary : Summary
deriving Repr, DecidableEq

/-- `POST /api/products/import` (main.py lines 235-369) after upload
parsing: header validation aborts the whole operation, listing the missing
headers, before any row is classified; otherwise the rows are processed in
order starting at CSV line 2. -/
def import_products_csv (headers : List String) (dataRows : List RawRow)
    (apply : Bool) (mode : String) (conflictAt : Nat → Bool) (db : Db) :
    Db × Except ImportError ImportPreview :=
  let missing := CSV_HEADERS.filter (fun h => ¬ headers.contains h)
  if missing ≠ [] then
    (db, .error ⟨"CSV inválido", missing, CSV_HEADERS⟩)
  else
    let res := runImport mode apply conflictAt db 2 dataRows
    (res.1, .ok ⟨headers, res.2.1, res.2.2⟩)

/-- The single-writer conflict oracle: no commit ever fails. -/
def noConflict : Nat → Bool := fun _ => false

/-- A data row the Pydantic layer accepts: nonempty trimmed sku and
successful coercion. -/
def rowOk (r : RawRow) : Bool :=
  strTrim r.sku ≠ "" && (validateProductCreate (strTrim r.sku) r).isSome

/-- The summary contribution of a single row landing at the given
classification. -/
def unitSummary : RowAction → Summary
  | .create => { create := 1 }
  | .update => { update := 1 }
  | .skip => { skip := 1 }
  | .invalid => { invalid := 1 }

/-- The last data row of a batch carrying the given trimmed sku. -/
def lastFor (rows : List RawRow) (s : String) : Option RawRow :=
  rows.reverse.find? (fun r => strTrim r.sku == s)

/-- The net catalog effect of an all-rows-coerce upsert batch: every
product whose sku occurs in the batch ends up holding the coerced fields of
the batch's last row for that sku; every other product is untouched. -/
def lastUpd (db : Db) (rows : List RawRow) : Db :=
  { db with
    products := db.products.map (fun p =>
      match lastFor rows p.sku with
      | some r =>
        match validateProductCreate (strTrim r.sku) r with
        | some c => overwriteFromPayload p c
        | none => p
      | none => p) }

/-! ## Concrete sample data used to instantiate the theorems -/

/-- A sample catalog row. -/
def sampleProduct : Product := ⟨1, "Arroz", "SKU-1", "Alimentos", "A", 7, 2, 5, 7, 50⟩

/-- A sample store holding `sampleProduct`. -/
def sampleDb : Db := ⟨[sampleProduct], [], 2, 1, 100⟩

/-- The empty store. -/
def emptyDb : Db := ⟨[], [], 1, 1, 100⟩

/-- A sample partial-update patch supplying only `name` and `quantity`. -/
def sampleUpdate : ProductUpdate := { name := some "Arroz Integral", quantity := some 3 }

/-- The product produced by applying `sampleUpdate` to `sampleProduct`. -/
def sampleUpdated : Product := applyUpdate sampleProduct sampleUpdate

/-- A sample CSV data row for sku `SKU-1`. -/
def sampleRow : RawRow := ⟨"SKU-1", "Arroz", "Alimentos", "A", "10", "5.50", "7.00", "2"⟩

/-- A sample CSV data row for sku `SKU-2`. -/
def sampleRow2 : RawRow := ⟨"SKU-2", "Feijao", "", "", "1", "1.00", "2.00", "1"⟩

/-- The concrete preview produced by a two-row upsert dry run over the
empty store. -/
def samplePreview : ImportPreview :=
  ⟨CSV_HEADERS,
   [⟨2, some "SKU-1", .create, []⟩, ⟨3, some "SKU-2", .create, []⟩],
   ⟨2, 0, 0, 0⟩⟩

end Estoque

namespace Estoque

/-- C1: for an exit movement on an existing product whose amount exceeds
the product's current quantity, record-movement fails with
InvalidOperation and no state is mutated: the store, product row and
movement table included, is returned unchanged and no movement is
produced. -/
theorem exit_overdraft_fails_unchanged (db : Db) (pid qty : Nat)
    (occurred : Option Nat) (note : String) (p : Product)
    (hfind : db.products.find? (fun q => q.id == pid) = some p)
    (h1 : 1 ≤ qty) (hover : p.quantity < qty) :
    recordMovement db pid .exit qty occurred note = (db, .error .invalidOperation) := by
  unfold recordMovement
  rw [if_neg (by omega), hfind]
  have hneg : (p.quantity : Int) - (qty : Int) < 0 := by
    omega
  simp only [hneg, if_pos]

/-- C1 witness: an exit of 999 against `sampleProduct` (quantity 7) fails
with InvalidOperation and leaves `sampleDb` unchanged. -/
theorem exit_overdraft_fails_unchanged_witness :
    recordMovement sampleDb 1 .exit 999 none "" = (sampleDb, .error .invalidOperation) :=
  exit_overdraft_fails_unchanged sampleDb 1 999 none "" sampleProduct (by rfl)
    (by decide) (by decide)

/-- C2: the claim that every returned product carries a computed
`low_stock` field fails on this code: `_to_product_out` omits `low_stock`
from the keyword arguments it passes, yet `ProductOut` declares it
required, so the Pydantic construction of every product response rejects
its arguments instead of producing a payload carrying
`low_stock = (quantity <= min_stock)`. -/
theorem to_product_out_missing_low_stock :
    pydanticFieldsOk productOutRequiredFields toProductOutPassedFields = false
      ∧ "low_stock" ∈ productOutRequiredFields
      ∧ "low_stock" ∉ toProductOutPassedFields := by
  decide

/-- C5: a CSV upload missing at least one required header makes the import
fail as a whole with an error listing exactly the missing headers and the
expected set, before any row is classified, the catalog being returned
unchanged. -/
theorem missing_headers_abort (headers : List String) (dataRows : List RawRow)
    (apply : Bool) (mode : String) (conflictAt : Nat → Bool) (db : Db)
    (h : CSV_HEADERS.filter (fun hd => ¬ headers.contains hd) ≠ []) :
    import_products_csv headers dataRows apply mode conflictAt db =
      (db, .error ⟨"CSV inválido",
                   CSV_HEADERS.filter (fun hd => ¬ headers.contains hd),
                   CSV_HEADERS⟩) := by
  unfold import_products_csv
  simp only [if_pos h]

/-- C5 witness: an upload exposing only the `sku` and `name` headers aborts
with the six other required headers listed and the catalog unchanged. -/
theorem missing_headers_abort_witness :
    import_products_csv ["sku", "name"] [sampleRow] true "upsert" noConflict emptyDb =
      (emptyDb, .error ⟨"CSV inválido",
        CSV_HEADERS.filter (fun hd => ¬ ["sku", "name"].contains hd),
        CSV_HEADERS⟩) :=
  missing_headers_abort ["sku", "name"] [sampleRow] true "upsert" noConflict emptyDb
    (by decide)

/-- A successful coercion pins the payload's sku to the sku it was given. -/
theorem validate_sku_eq (s : String) (r : RawRow) (c : ProductCreate)
    (h : validateProductCreate s r = some c) : c.sku = s := by
  unfold validateProductCreate at h
  split at h
  · split at h
    · cases h
      rfl
    · cases h
  · cases h

/-- C4: a well-coerced row processed in mode `create` whose sku already
exists in the catalog receives a field error on `sku`, ends classified
`invalid` (its whole summary contribution is one `invalid`, nothing under
`skip` or `create`), and no write happens even when `apply` is true: the
store is returned unchanged. -/
theorem create_mode_existing_sku_invalid (db : Db) (line : Nat) (r : RawRow)
    (apply : Bool) (conflictAt : Nat → Bool) (c : ProductCreate) (e : Product)
    (hne : strTrim r.sku ≠ "")
    (hval : validateProductCreate (strTrim r.sku) r = some c)
    (hfind : db.products.find? (fun p => p.sku == c.sku) = some e) :
    importRow "create" apply conflictAt db line r =
      (db, ⟨line, some (strTrim r.sku), .invalid,
            [⟨"sku", "SKU já existe (modo create)"⟩]⟩,
       { invalid := 1 }) := by
  have hsku := validate_sku_eq _ _ _ hval
  unfold importRow
  rw [if_neg hne, hval]
  rw [hsku] at hfind
  simp [hsku, hfind]

/-- C4 witness: re-importing the row for the already-present `SKU-1` in
mode `create` with `apply = true` yields one `invalid` with the sku error
and leaves `sampleDb` unchanged. -/
theorem create_mode_existing_sku_invalid_witness :
    importRow "create" true noConflict sampleDb 2 sampleRow =
      (sampleDb, ⟨2, some "SKU-1", .invalid,
                  [⟨"sku", "SKU já existe (modo create)"⟩]⟩,
       { invalid := 1 }) := by
  have hs : (validateProductCreate (strTrim sampleRow.sku) sampleRow).isSome = true := by
    decide
  have h := create_mode_existing_sku_invalid sampleDb 2 sampleRow true noConflict
    ((validateProductCreate (strTrim sampleRow.sku) sampleRow).get hs) sampleProduct
    (by decide) (Option.some_get hs).symm (by rfl)
  exact h


/-- C7: a successful partial update changes exactly the fields the caller
supplied: every unsupplied field keeps its stored value, every supplied
field takes the supplied value, and `id` and `created_at` are never
changed. -/
theorem update_product_partial (db : Db) (pid : Nat) (u : ProductUpdate)
    (p p' : Product)
    (hfind : db.products.find? (fun q => q.id == pid) = some p)
    (hok : (update_product db pid u).2 = .ok p') :
    p'.id = p.id ∧ p'.created_at = p.created_at
      ∧ (u.name = none → p'.name = p.name)
      ∧ (u.sku = none → p'.sku = p.sku)
      ∧ (u.category = none → p'.category = p.category)
      ∧ (u.supplier = none → p'.supplier = p.supplier)
      ∧ (u.quantity = none → p'.quantity = p.quantity)
      ∧ (u.min_stock = none → p'.min_stock = p.min_stock)
      ∧ (u.cost = none → p'.cost = p.cost)
      ∧ (u.price = none → p'.price = p.price)
      ∧ (∀ v, u.name = some v → p'.name = v)
      ∧ (∀ v, u.sku = some v → p'.sku = v)
      ∧ (∀ v, u.category = some v → p'.category = v)
      ∧ (∀ v, u.supplier = some v → p'.supplier = v)
      ∧ (∀ v, u.quantity = some v → p'.quantity = v)
      ∧ (∀ v, u.min_stock = some v → p'.min_stock = v)
      ∧ (∀ v, u.cost = some v → p'.cost = v)
      ∧ (∀ v, u.price = some v → p'.price = v) := by
  unfold update_product at hok
  simp only [hfind] at hok
  by_cases hc : (db.products.any fun q => q.sku == (applyUpdate p u).sku && q.id != p.id) = true
  · rw [if_pos hc] at hok
    simp at hok
  · rw [if_neg hc] at hok
    simp only [] at hok
    rw [Except.ok.injEq] at hok
    subst hok
    refine ⟨rfl, rfl, ?_, ?_, ?_, ?_, ?_, ?_, ?_, ?_, ?_, ?_, ?_, ?_, ?_, ?_, ?_, ?_⟩ <;>
      first
        | (intro h; simp [applyUpdate, h])
        | (intro v h; simp [applyUpdate, h])

/-- C7 witness: updating `sampleProduct` with a patch supplying only `name`
and `quantity` keeps sku, category, supplier, min stock, cost, price, id
and creation time, while the two supplied fields take the new values. -/
theorem update_product_partial_witness :
    (update_product sampleDb 1 sampleUpdate).2 = .ok sampleUpdated
      ∧ sampleUpdated.id = sampleProduct.id
      ∧ sampleUpdated.created_at = sampleProduct.created_at
      ∧ sampleUpdated.sku = sampleProduct.sku
      ∧ sampleUpdated.category = sampleProduct.category
      ∧ sampleUpdated.supplier = sampleProduct.supplier
      ∧ sampleUpdated.min_stock = sampleProduct.min_stock
      ∧ sampleUpdated.cost = sampleProduct.cost
      ∧ sampleUpdated.price = sampleProduct.price
      ∧ sampleUpdated.name = "Arroz Integral"
      ∧ sampleUpdated.quantity = 3 := by
  have h := update_product_partial sampleDb 1 sampleUpdate sampleProduct sampleUpdated
    (by rfl) (by rfl)
  obtain ⟨h1, h2, _, h4, h5, h6, _, h8, h9, h10, hn, _, _, _, hq, _, _, _⟩ := h
  exact ⟨by rfl, h1, h2, h4 rfl, h5 rfl, h6 rfl, h8 rfl, h9 rfl, h10 rfl,
    hn _ rfl, hq _ rfl⟩


/-- Unpacks `rowOk`: the trimmed sku is nonempty and coercion succeeds. -/
theorem rowOk_elim (r : RawRow) (h : rowOk r = true) :
    strTrim r.sku ≠ "" ∧ ∃ c, validateProductCreate (strTrim r.sku) r = some c := by
  unfold rowOk at h
  rw [Bool.and_eq_true, decide_eq_true_eq, Option.isSome_iff_exists] at h
  exact h

/-- Upsert step on a coercing row whose sku is absent: the row classifies
`create`, the product built from the payload is appended, and the tally is
one `create`. -/
theorem importRow_upsert_create (db : Db) (line : Nat) (r : RawRow)
    (c : ProductCreate) (oracle : Nat → Bool)
    (hne : strTrim r.sku ≠ "")
    (hval : validateProductCreate (strTrim r.sku) r = some c)
    (hfind : db.products.find? (fun p => p.sku == c.sku) = none)
    (hnc : oracle line = false) :
    importRow "upsert" true oracle db line r =
      ({ db with products := db.products ++ [productOfPayload db c],
                 nextProductId := db.nextProductId + 1 },
       ⟨line, some c.sku, .create, []⟩, { create := 1 }) := by
  unfold importRow
  rw [if_neg hne, hval]
  simp [hfind, hnc]

/-- Upsert step on a coercing row whose sku is present: the row classifies
`update`, the matched product's seven value fields are overwritten in
place, and the tally is one `update`. -/
theorem importRow_upsert_update (db : Db) (line : Nat) (r : RawRow)
    (c : ProductCreate) (e : Product) (oracle : Nat → Bool)
    (hne : strTrim r.sku ≠ "")
    (hval : validateProductCreate (strTrim r.sku) r = some c)
    (hfind : db.products.find? (fun p => p.sku == c.sku) = some e)
    (hnc : oracle line = false) :
    importRow "upsert" true oracle db line r =
      ({ db with products := (db.products.map
           (fun p => if p.id == e.id then overwriteFromPayload p c else p)) },
       ⟨line, some c.sku, .update, []⟩, { update := 1 }) := by
  unfold importRow
  rw [if_neg hne, hval]
  simp [hfind, hnc]

/-- C6: when a classified create-or-update row's commit raises an
integrity conflict during an `apply=true` upsert run, that row's write is
rolled back (the store passed on is the one from before the row), the row
is reclassified `invalid` with an added `sku` field error, its net summary
contribution is one `invalid` (the tentative create or update tally is
decremented again), and the batch goes on: the remaining rows are
processed from the unchanged store. -/
theorem conflict_row_recovery (db : Db) (line : Nat) (r : RawRow)
    (rest : List RawRow) (oracle : Nat → Bool)
    (hok : rowOk r = true) (hc : oracle line = true) :
    importRow "upsert" true oracle db line r =
      (db, ⟨line, some (strTrim r.sku), .invalid,
            [⟨"sku", "Conflito de SKU / integridade"⟩]⟩, { invalid := 1 })
    ∧ runImport "upsert" true oracle db line (r :: rest) =
      ((runImport "upsert" true oracle db (line + 1) rest).1,
       ⟨line, some (strTrim r.sku), .invalid,
        [⟨"sku", "Conflito de SKU / integridade"⟩]⟩
         :: (runImport "upsert" true oracle db (line + 1) rest).2.1,
       addSummary { invalid := 1 }
         (runImport "upsert" true oracle db (line + 1) rest).2.2) := by
  obtain ⟨hne, c, hval⟩ := rowOk_elim r hok
  have hsku := validate_sku_eq _ _ _ hval
  have hstep : importRow "upsert" true oracle db line r =
      (db, ⟨line, some (strTrim r.sku), .invalid,
            [⟨"sku", "Conflito de SKU / integridade"⟩]⟩, { invalid := 1 }) := by
    unfold importRow
    rw [if_neg hne, hval]
    cases hfind : db.products.find? (fun p => p.sku == strTrim r.sku) with
    | none => simp [hsku, hfind, hc]
    | some e => simp [hsku, hfind, hc]
  refine ⟨hstep, ?_⟩
  show (let step := importRow "upsert" true oracle db line r
        let rest2 := runImport "upsert" true oracle step.1 (line + 1) rest
        (rest2.1, step.2.1 :: rest2.2.1, addSummary step.2.2 rest2.2.2)) = _
  rw [hstep]

/-- C6 witness: with a conflict injected at CSV line 2 of a two-row upsert
batch over the empty store, the first row is reclassified `invalid` with
the integrity error and the second row is still processed, from the
untouched store. -/
theorem conflict_row_recovery_witness :
    importRow "upsert" true (fun l => l == 2) emptyDb 2 sampleRow =
      (emptyDb, ⟨2, some (strTrim sampleRow.sku), .invalid,
                 [⟨"sku", "Conflito de SKU / integridade"⟩]⟩, { invalid := 1 })
    ∧ runImport "upsert" true (fun l => l == 2) emptyDb 2 [sampleRow, sampleRow2] =
      ((runImport "upsert" true (fun l => l == 2) emptyDb 3 [sampleRow2]).1,
       ⟨2, some (strTrim sampleRow.sku), .invalid,
        [⟨"sku", "Conflito de SKU / integridade"⟩]⟩
         :: (runImport "upsert" true (fun l => l == 2) emptyDb 3 [sampleRow2]).2.1,
       addSummary { invalid := 1 }
         (runImport "upsert" true (fun l => l == 2) emptyDb 3 [sampleRow2]).2.2) :=
  conflict_row_recovery emptyDb 2 sampleRow [sampleRow2] (fun l => l == 2)
    (by decide) (by decide)


/-- C9: rows are processed strictly in input order, each row's write
committing before the next row is evaluated: when two rows of an
`apply=true` upsert batch share a sku that is absent from the catalog, the
first row is classified `create` and the second row's existence lookup
already sees that write, classifying it `update`. -/
theorem later_row_sees_earlier_create (db : Db) (line : Nat)
    (r1 r2 : RawRow) (rest : List RawRow)
    (h1 : rowOk r1 = true) (h2 : rowOk r2 = true)
    (hs : strTrim r2.sku = strTrim r1.sku)
    (habs : ∀ p ∈ db.products, p.sku ≠ strTrim r1.sku) :
    ∃ prs : List PreviewRow,
      (runImport "upsert" true noConflict db line (r1 :: r2 :: rest)).2.1 =
        ⟨line, some (strTrim r1.sku), .create, []⟩
          :: ⟨line + 1, some (strTrim r1.sku), .update, []⟩ :: prs := by
  obtain ⟨hne1, c1, hval1⟩ := rowOk_elim r1 h1
  obtain ⟨hne2, c2, hval2⟩ := rowOk_elim r2 h2
  have hsku1 := validate_sku_eq _ _ _ hval1
  have hsku2 := validate_sku_eq _ _ _ hval2
  have hfind1 : db.products.find? (fun p => p.sku == c1.sku) = none := by
    rw [List.find?_eq_none]
    intro p hp
    simpa [hsku1] using habs p hp
  have hstep1 := importRow_upsert_create db line r1 c1 noConflict hne1 hval1 hfind1 rfl
  set db1 : Db :=
    { db with products := db.products ++ [productOfPayload db c1],
              nextProductId := db.nextProductId + 1 } with hdb1
  have hfind2 : db1.products.find? (fun p => p.sku == c2.sku) = some (productOfPayload db c1) := by
    show (db.products ++ [productOfPayload db c1]).find? (fun p => p.sku == c2.sku) = _
    rw [List.find?_append]
    have hl : db.products.find? (fun p => p.sku == c2.sku) = none := by
      rw [List.find?_eq_none]
      intro p hp
      simpa [hsku2, hs] using habs p hp
    rw [hl]
    simp [productOfPayload, hsku1, hsku2, hs]
  have hstep2 := importRow_upsert_update db1 (line + 1) r2 c2 (productOfPayload db c1)
    noConflict hne2 hval2 hfind2 rfl
  refine ⟨(runImport "upsert" true noConflict
      (importRow "upsert" true noConflict db1 (line + 1) r2).1 (line + 1 + 1) rest).2.1, ?_⟩
  simp only [runImport]
  rw [hstep1]
  simp only [runImport]
  rw [hstep2]
  simp [hsku1, hsku2, hs]


/-- C9 witness: importing the same new-sku row twice in one upsert batch
over the empty store classifies the first occurrence `create` and the
second `update`. -/
theorem later_row_sees_earlier_create_witness :
    ∃ prs : List PreviewRow,
      (runImport "upsert" true noConflict emptyDb 2 [sampleRow, sampleRow]).2.1 =
        ⟨2, some (strTrim sampleRow.sku), .create, []⟩
          :: ⟨2 + 1, some (strTrim sampleRow.sku), .update, []⟩ :: prs :=
  later_row_sees_earlier_create emptyDb 2 sampleRow sampleRow [] (by decide) (by decide)
    rfl (by intro p hp; cases hp)

/-- Every row's net summary contribution is the unit tally of its final
classification. -/
theorem importRow_summary (mode : String) (apply : Bool) (conflictAt : Nat → Bool)
    (db : Db) (line : Nat) (r : RawRow) :
    (importRow mode apply conflictAt db line r).2.2 =
      unitSummary (importRow mode apply conflictAt db line r).2.1.action := by
  unfold importRow
  by_cases h1 : strTrim r.sku = ""
  · simp [h1, unitSummary]
  · rw [if_neg h1]
    cases hval : validateProductCreate (strTrim r.sku) r with
    | none => simp [unitSummary]
    | some c =>
      by_cases hm1 : mode = "create"
      · cases hfind : db.products.find? (fun p => p.sku == c.sku) with
        | none =>
          cases apply with
          | false => simp [hm1, hfind, unitSummary]
          | true =>
            by_cases hcf : conflictAt line = true <;> simp [hm1, hfind, hcf, unitSummary]
        | some e => simp [hm1, hfind, unitSummary]
      · by_cases hm2 : mode = "update"
        · cases hfind : db.products.find? (fun p => p.sku == c.sku) with
          | none => simp [hm1, hm2, hfind, unitSummary]
          | some e =>
            cases apply with
            | false => simp [hm1, hm2, hfind, unitSummary]
            | true =>
              by_cases hcf : conflictAt line = true <;>
                simp [hm1, hm2, hfind, hcf, unitSummary]
        · cases hfind : db.products.find? (fun p => p.sku == c.sku) with
          | none =>
            cases apply with
            | false => simp [hm1, hm2, hfind, unitSummary]
            | true =>
              by_cases hcf : conflictAt line = true <;>
                simp [hm1, hm2, hfind, hcf, unitSummary]
          | some e =>
            cases apply with
            | false => simp [hm1, hm2, hfind, unitSummary]
            | true =>
              by_cases hcf : conflictAt line = true <;>
                simp [hm1, hm2, hfind, hcf, unitSummary]

/-- The import returns one preview row per data row. -/
theorem runImport_length (mode : String) (apply : Bool) (conflictAt : Nat → Bool)
    (db : Db) (line : Nat) (rows : List RawRow) :
    (runImport mode apply conflictAt db line rows).2.1.length = rows.length := by
  induction rows generalizing db line with
  | nil => rfl
  | cons r rs ih =>
    simp only [runImport, List.length_cons]
    rw [ih]

/-- Each summary counter of a run equals the number of preview rows whose
final classification matches it. -/
theorem runImport_counts (mode : String) (apply : Bool) (conflictAt : Nat → Bool)
    (db : Db) (line : Nat) (rows : List RawRow) :
    (runImport mode apply conflictAt db line rows).2.2.create =
        ((runImport mode apply conflictAt db line rows).2.1.filter
          (fun pr => pr.action == .create)).length
      ∧ (runImport mode apply conflictAt db line rows).2.2.update =
        ((runImport mode apply conflictAt db line rows).2.1.filter
          (fun pr => pr.action == .update)).length
      ∧ (runImport mode apply conflictAt db line rows).2.2.skip =
        ((runImport mode apply conflictAt db line rows).2.1.filter
          (fun pr => pr.action == .skip)).length
      ∧ (runImport mode apply conflictAt db line rows).2.2.invalid =
        ((runImport mode apply conflictAt db line rows).2.1.filter
          (fun pr => pr.action == .invalid)).length := by
  induction rows generalizing db line with
  | nil => exact ⟨rfl, rfl, rfl, rfl⟩
  | cons r rs ih =>
    obtain ⟨ihc, ihu, ihs, ihi⟩ := ih (importRow mode apply conflictAt db line r).1 (line + 1)
    have hu := importRow_summary mode apply conflictAt db line r
    simp only [runImport, List.filter_cons]
    cases ha : (importRow mode apply conflictAt db line r).2.1.action <;>
      rw [ha] at hu <;>
      simp [hu, unitSummary, addSummary, ihc, ihu, ihs, ihi] <;>
      omega

/-- C10: for every import run (any mode, any apply setting, any conflict
pattern) that passes header validation, each of the four summary counters
equals the number of returned rows whose final classification is that
action, and the four counters sum to the number of data rows. -/
theorem import_summary_consistent (headers : List String) (dataRows : List RawRow)
    (apply : Bool) (mode : String) (conflictAt : Nat → Bool) (db db' : Db)
    (pv : ImportPreview)
    (h : import_products_csv headers dataRows apply mode conflictAt db = (db', .ok pv)) :
    pv.summary.create = (pv.rows.filter (fun pr => pr.action == .create)).length
      ∧ pv.summary.update = (pv.rows.filter (fun pr => pr.action == .update)).length
      ∧ pv.summary.skip = (pv.rows.filter (fun pr => pr.action == .skip)).length
      ∧ pv.summary.invalid = (pv.rows.filter (fun pr => pr.action == .invalid)).length
      ∧ pv.rows.length = dataRows.length
      ∧ pv.summary.create + pv.summary.update + pv.summary.skip + pv.summary.invalid
          = dataRows.length := by
  unfold import_products_csv at h
  rw [Prod.mk.injEq] at h
  by_cases hm : CSV_HEADERS.filter (fun hd => ¬ headers.contains hd) ≠ []
  · rw [if_pos hm] at h
    simp at h
  · rw [if_neg hm] at h
    have hpv : pv = ⟨headers, (runImport mode apply conflictAt db 2 dataRows).2.1,
        (runImport mode apply conflictAt db 2 dataRows).2.2⟩ := by
      have h2 := h.2
      rw [Except.ok.injEq] at h2
      exact h2.symm
    subst hpv
    obtain ⟨hc, hu, hs, hi⟩ := runImport_counts mode apply conflictAt db 2 dataRows
    have hlen := runImport_length mode apply conflictAt db 2 dataRows
    refine ⟨hc, hu, hs, hi, hlen, ?_⟩
    rw [hc, hu, hs, hi, ← hlen]
    have hfour : ∀ l : List PreviewRow,
        (l.filter (fun pr => pr.action == .create)).length
          + (l.filter (fun pr => pr.action == .update)).length
          + (l.filter (fun pr => pr.action == .skip)).length
          + (l.filter (fun pr => pr.action == .invalid)).length = l.length := by
      intro l
      induction l with
      | nil => rfl
      | cons x xs ihx =>
        simp only [List.filter_cons, List.length_cons]
        cases hx : x.action <;> simp <;> omega
    exact hfour _

/-- C10 witness: a two-row upsert dry run over the empty store yields two
preview rows, counters matching the classifications and summing to the
number of data rows. -/
theorem import_summary_consistent_witness :
    samplePreview.summary.create =
        (samplePreview.rows.filter (fun pr => pr.action == .create)).length
      ∧ samplePreview.summary.update =
        (samplePreview.rows.filter (fun pr => pr.action == .update)).length
      ∧ samplePreview.summary.skip =
        (samplePreview.rows.filter (fun pr => pr.action == .skip)).length
      ∧ samplePreview.summary.invalid =
        (samplePreview.rows.filter (fun pr => pr.action == .invalid)).length
      ∧ samplePreview.rows.length = 2
      ∧ samplePreview.summary.create + samplePreview.summary.update
          + samplePreview.summary.skip + samplePreview.summary.invalid = 2 :=
  import_summary_consistent CSV_HEADERS [sampleRow, sampleRow2] false "upsert" noConflict
    emptyDb emptyDb samplePreview (by rfl)


/-- C8 counterexample: the claim that the list operation supports a
`low_stock` filter fails on this code: no query acceptable to
`list_products` makes the operation return, for every catalog, exactly the
low-stock products among those matching the other filters. For any query
there is a catalog whose single low-stock product passes every filter the
query can express, forcing a nonempty result, yet the handler then fails
in `_to_product_out` instead of returning it. -/
theorem no_low_stock_filter_in_list :
    ¬ ∃ q : ListQuery, ∀ db : Db, ∃ out : List Product,
        list_products q db = .ok out
          ∧ (∀ p ∈ out, p.quantity ≤ p.min_stock)
          ∧ (∀ p ∈ db.products, p.quantity ≤ p.min_stock →
              matchesQuery q p = true → p ∈ out) := by
  rintro ⟨q, h⟩
  classical
  set nm : String := q.search.getD "x" with hnm
  set ct : String := q.category.getD "" with hct
  set sp : String := q.supplier.getD "" with hsp
  set pq : Product := ⟨1, nm, "S", ct, sp, 0, 1, 0, 0, 0⟩ with hpq
  set db : Db := ⟨[pq], [], 2, 1, 0⟩ with hdb
  have hmatch : matchesQuery q pq = true := by
    unfold matchesQuery
    rw [Bool.and_eq_true, Bool.and_eq_true]
    refine ⟨⟨?_, ?_⟩, ?_⟩
    · cases hqs : q.search with
      | none => rfl
      | some s =>
        by_cases hse : s = ""
        · simp [hse]
        · have hname : nm = s := by
            rw [hnm, hqs]
            rfl
          have hlike : likeContains s s = true := by
            unfold likeContains
            exact decide_eq_true List.infix_rfl
          simp [hse, hname, hlike]
    · cases hqc : q.category with
      | none => rfl
      | some c =>
        by_cases hce : c = ""
        · simp [hce]
        · have hcat : ct = c := by
            rw [hct, hqc]
            rfl
          simp [hce, hcat]
    · cases hqp : q.supplier with
      | none => rfl
      | some s =>
        by_cases hse : s = ""
        · simp [hse]
        · have hsupp : sp = s := by
            rw [hsp, hqp]
            rfl
          simp [hse, hsupp]
  obtain ⟨out, hok, hlow, hrecall⟩ := h db
  have hpqout : pq ∈ out := by
    refine hrecall pq ?_ ?_ hmatch
    · show pq ∈ [pq]
      exact List.mem_singleton_self pq
    · show (0 : Nat) ≤ 1
      omega
  have hrows : pq ∈ list_products_rows q db := by
    unfold list_products_rows
    rw [List.mem_mergeSort]
    show pq ∈ List.filter (matchesQuery q) [pq]
    simp [hmatch]
  have herr : list_products q db = .error .internal := by
    unfold list_products
    have hall : (list_products_rows q db).all
        (fun _ => pydanticFieldsOk productOutRequiredFields toProductOutPassedFields)
          = false :=
      List.all_eq_false.mpr ⟨pq, hrows, by decide⟩
    rw [hall]
    rfl
  rw [herr] at hok
  cases hok

/-- C8 amended: the list operation provides no low-stock filter. Its query
(main.py lines 121-133) selects exactly the catalog products matching the
search, category and supplier filters, regardless of quantity versus
min_stock; and because response marshalling raises for every row (the
defect established for C2), the operation returns the empty list when
nothing matches and an internal error otherwise — never a nonempty
product list. -/
theorem list_products_no_low_stock_restriction (q : ListQuery) (db : Db) :
    (∀ p ∈ list_products_rows q db, p ∈ db.products ∧ matchesQuery q p = true)
      ∧ (∀ p ∈ db.products, matchesQuery q p = true → p ∈ list_products_rows q db)
      ∧ (list_products_rows q db = [] → list_products q db = .ok [])
      ∧ (list_products_rows q db ≠ [] → list_products q db = .error .internal) := by
  have hpf : pydanticFieldsOk productOutRequiredFields toProductOutPassedFields = false := by
    decide
  refine ⟨?_, ?_, ?_, ?_⟩
  · intro p hp
    unfold list_products_rows at hp
    rw [List.mem_mergeSort] at hp
    exact ⟨(List.mem_filter.mp hp).1, (List.mem_filter.mp hp).2⟩
  · intro p hp hm
    unfold list_products_rows
    rw [List.mem_mergeSort]
    exact List.mem_filter.mpr ⟨hp, hm⟩
  · intro hnil
    unfold list_products
    rw [hnil]
    rfl
  · intro hne
    unfold list_products
    have hall : (list_products_rows q db).all
        (fun _ => pydanticFieldsOk productOutRequiredFields toProductOutPassedFields)
          = false := by
      cases hrw : list_products_rows q db with
      | nil => exact absurd hrw hne
      | cons a l =>
        rw [List.all_cons, hpf]
        rfl
    rw [hall]
    rfl

/-- C8 amended witness: with no filters supplied, the sample product —
whose quantity exceeds its minimum stock — is selected by the query, and
the operation itself ends in the internal marshalling error instead of
returning any product list. -/
theorem list_products_no_low_stock_restriction_witness :
    sampleProduct ∈ list_products_rows {} sampleDb
      ∧ sampleProduct.min_stock < sampleProduct.quantity
      ∧ list_products {} sampleDb = .error .internal := by
  have h := list_products_no_low_stock_restriction {} sampleDb
  have hmem : sampleProduct ∈ list_products_rows {} sampleDb :=
    h.2.1 sampleProduct (List.mem_singleton_self _) rfl
  refine ⟨hmem, by decide, h.2.2.2 ?_⟩
  intro hcontra
  rw [hcontra] at hmem
  cases hmem

/-- Overwriting twice keeps only the second payload. -/
theorem ov_ov (p : Product) (a b : ProductCreate) :
    overwriteFromPayload (overwriteFromPayload p a) b = overwriteFromPayload p b := rfl

/-- Overwriting keeps the stored sku. -/
theorem ov_sku (p : Product) (c : ProductCreate) :
    (overwriteFromPayload p c).sku = p.sku := rfl

/-- Overwriting keeps the stored id. -/
theorem ov_id (p : Product) (c : ProductCreate) :
    (overwriteFromPayload p c).id = p.id := rfl

/-- The create write of the import preserves store well-formedness: the
fresh id is above every live id and the sku was just checked absent. -/
theorem wf_create (db : Db) (c : ProductCreate)
    (hwf : db.Wf)
    (hfind : db.products.find? (fun p => p.sku == c.sku) = none) :
    Db.Wf { db with products := db.products ++ [productOfPayload db c],
                    nextProductId := db.nextProductId + 1 } := by
  have habs : ∀ p ∈ db.products, p.sku ≠ c.sku := by
    intro p hp
    have := List.find?_eq_none.mp hfind p hp
    simpa using this
  constructor
  · show ((db.products ++ [productOfPayload db c]).map Product.id).Nodup
    rw [List.map_append, List.nodup_append]
    refine ⟨hwf.ids_nodup, by simp, ?_⟩
    intro x hx hy
    simp only [List.map_cons, List.map_nil, List.mem_singleton] at hy
    obtain ⟨p, hp, hpid⟩ := List.mem_map.mp hx
    have := hwf.ids_lt p hp
    simp [productOfPayload] at hy
    omega
  · show ((db.products ++ [productOfPayload db c]).map Product.sku).Nodup
    rw [List.map_append, List.nodup_append]
    refine ⟨hwf.skus_nodup, by simp, ?_⟩
    intro x hx hy
    simp only [List.map_cons, List.map_nil, List.mem_singleton] at hy
    obtain ⟨p, hp, hpsku⟩ := List.mem_map.mp hx
    subst hy
    exact habs p hp (by simpa [productOfPayload] using hpsku)
  · intro p hp
    rcases List.mem_append.mp hp with hm | hm
    · have := hwf.ids_lt p hm
      show p.id < db.nextProductId + 1
      omega
    · rw [List.mem_singleton.mp hm]
      show db.nextProductId < db.nextProductId + 1
      omega

/-- The update write of the import preserves store well-formedness: every
id and sku in the catalog is untouched. -/
theorem wf_update (db : Db) (c : ProductCreate) (e : Product)
    (hwf : db.Wf) :
    Db.Wf { db with products := (db.products.map
        (fun p => if p.id == e.id then overwriteFromPayload p c else p)) } := by
  have hid : (db.products.map
        (fun p => if p.id == e.id then overwriteFromPayload p c else p)).map Product.id
      = db.products.map Product.id := by
    rw [List.map_map]
    apply List.map_congr_left
    intro a _
    by_cases h : a.id == e.id <;> simp [h, overwriteFromPayload, Function.comp]
  have hsku : (db.products.map
        (fun p => if p.id == e.id then overwriteFromPayload p c else p)).map Product.sku
      = db.products.map Product.sku := by
    rw [List.map_map]
    apply List.map_congr_left
    intro a _
    by_cases h : a.id == e.id <;> simp [h, overwriteFromPayload, Function.comp]
  constructor
  · show ((db.products.map _).map Product.id).Nodup
    rw [hid]
    exact hwf.ids_nodup
  · show ((db.products.map _).map Product.sku).Nodup
    rw [hsku]
    exact hwf.skus_nodup
  · intro p hp
    obtain ⟨q, hq, hqe⟩ := List.mem_map.mp hp
    have := hwf.ids_lt q hq
    by_cases h : q.id == e.id
    · rw [if_pos h] at hqe
      rw [← hqe]
      simpa [overwriteFromPayload] using this
    · rw [if_neg h] at hqe
      rw [← hqe]
      exact this

/-- Under well-formedness, the import's update-by-id write coincides with
an update keyed by the matched sku. -/
theorem upd_by_id_eq_by_sku (d : Db) (c : ProductCreate) (e : Product)
    (hwf : d.Wf)
    (hfind : d.products.find? (fun p => p.sku == c.sku) = some e) :
    d.products.map (fun p => if p.id == e.id then overwriteFromPayload p c else p)
      = d.products.map (fun p => if p.sku == c.sku then overwriteFromPayload p c else p) := by
  have he := List.mem_of_find?_eq_some hfind
  have hesku : e.sku = c.sku := by
    have := List.find?_some hfind
    simpa using this
  apply List.map_congr_left
  intro p hp
  by_cases hid : p.id = e.id
  · have hpe : p = e := List.inj_on_of_nodup_map hwf.ids_nodup hp he hid
    subst hpe
    simp [hid, hesku]
  · by_cases hsku : p.sku = c.sku
    · exfalso
      have hpe : p = e := by
        apply List.inj_on_of_nodup_map hwf.skus_nodup hp he
        rw [hsku, hesku]
      exact hid (by rw [hpe])
    · simp [hid, hsku]

/-- Re-running an empty batch changes nothing. -/
theorem lastUpd_nil (d : Db) : lastUpd d [] = d := by
  unfold lastUpd lastFor
  simp

/-- Peeling one row off the net-effect denotation: updating by the head
row's sku first and then taking the tail's net effect is the whole batch's
net effect. -/
theorem lastUpd_cons (d : Db) (r : RawRow) (tl : List RawRow) (c : ProductCreate)
    (hval : validateProductCreate (strTrim r.sku) r = some c)
    (htl : ∀ r2 ∈ tl, rowOk r2 = true) :
    lastUpd { d with products := (d.products.map
        (fun p => if p.sku == c.sku then overwriteFromPayload p c else p)) } tl
      = lastUpd d (r :: tl) := by
  have hsku := validate_sku_eq _ _ _ hval
  unfold lastUpd
  rw [Db.ext_iff]
  refine ⟨?_, rfl, rfl, rfl, rfl⟩
  show ((d.products.map _).map _) = _
  rw [List.map_map]
  apply List.map_congr_left
  intro p hp
  simp only [Function.comp]
  have hlastcons : ∀ s : String, lastFor (r :: tl) s =
      ((lastFor tl s).or (List.find? (fun r2 => strTrim r2.sku == s) [r])) := by
    intro s
    unfold lastFor
    rw [List.reverse_cons, List.find?_append]
  by_cases hps : p.sku = c.sku
  · rw [if_pos (by simp [hps])]
    rw [ov_sku, hlastcons]
    cases hlast : lastFor tl p.sku with
    | some r2 =>
      have hr2 : r2 ∈ tl := by
        have : r2 ∈ tl.reverse := List.mem_of_find?_eq_some hlast
        simpa using this
      obtain ⟨hne2, c2, hval2⟩ := rowOk_elim r2 (htl r2 hr2)
      simp only [Option.or]
      rw [hval2]
      rfl
    | none =>
      have hone : List.find? (fun r2 => strTrim r2.sku == p.sku) [r] = some r := by
        have : (strTrim r.sku == p.sku) = true := by
          simp [hps, ← hsku]
        simp [List.find?, this]
      simp only [Option.or]
      rw [hone]
      simp only [hval]
  · rw [if_neg (by simp [hps])]
    rw [hlastcons]
    cases hlast : lastFor tl p.sku with
    | some r2 => simp [Option.or]
    | none =>
      have hone : List.find? (fun r2 => strTrim r2.sku == p.sku) [r] = none := by
        have : (strTrim r.sku == p.sku) = false := by
          simp [← hsku]
          intro hcontra
          exact hps hcontra.symm
        simp [List.find?, this]
      simp only [Option.or]
      rw [hone]


/-- One upsert apply step on a coercing row either creates (sku absent) or
updates in place (sku present). -/
theorem importRow_upsert_next (db : Db) (line : Nat) (r : RawRow)
    (hok : rowOk r = true) :
    ∃ c, validateProductCreate (strTrim r.sku) r = some c ∧
      ((db.products.find? (fun p => p.sku == c.sku) = none ∧
        importRow "upsert" true noConflict db line r =
          ({ db with products := db.products ++ [productOfPayload db c],
                     nextProductId := db.nextProductId + 1 },
           ⟨line, some c.sku, .create, []⟩, { create := 1 }))
       ∨ (∃ e, db.products.find? (fun p => p.sku == c.sku) = some e ∧
          importRow "upsert" true noConflict db line r =
            ({ db with products := (db.products.map
                (fun p => if p.id == e.id then overwriteFromPayload p c else p)) },
             ⟨line, some c.sku, .update, []⟩, { update := 1 }))) := by
  obtain ⟨hne, c, hval⟩ := rowOk_elim r hok
  refine ⟨c, hval, ?_⟩
  cases hfind : db.products.find? (fun p => p.sku == c.sku) with
  | none =>
    exact Or.inl ⟨rfl, importRow_upsert_create db line r c noConflict hne hval hfind rfl⟩
  | some e =>
    exact Or.inr ⟨e, rfl, importRow_upsert_update db line r c e noConflict hne hval hfind rfl⟩

/-- Every store along an all-coercing upsert apply run stays well-formed. -/
theorem runImport_upsert_wf (rows : List RawRow) :
    ∀ (d : Db) (line : Nat), d.Wf → (∀ r ∈ rows, rowOk r = true) →
      (runImport "upsert" true noConflict d line rows).1.Wf := by
  induction rows with
  | nil => intro d line hwf _; exact hwf
  | cons r tl ih =>
    intro d line hwf hok
    obtain ⟨c, hval, hstep⟩ := importRow_upsert_next d line r (hok r (by simp))
    have htl : ∀ r2 ∈ tl, rowOk r2 = true := fun r2 hr2 => hok r2 (by simp [hr2])
    simp only [runImport]
    rcases hstep with ⟨hfind, heq⟩ | ⟨e, hfind, heq⟩
    · rw [heq]
      exact ih _ (line + 1) (wf_create d c hwf hfind) htl
    · rw [heq]
      exact ih _ (line + 1) (wf_update d c e hwf) htl

/-- An upsert apply run never removes a sku from the catalog. -/
theorem runImport_upsert_sku_mono (rows : List RawRow) :
    ∀ (d : Db) (line : Nat) (s0 : String), (∀ r ∈ rows, rowOk r = true) →
      (∃ p ∈ d.products, p.sku = s0) →
      ∃ p ∈ (runImport "upsert" true noConflict d line rows).1.products, p.sku = s0 := by
  induction rows with
  | nil => intro d line s0 _ h; exact h
  | cons r tl ih =>
    intro d line s0 hok hex
    obtain ⟨c, hval, hstep⟩ := importRow_upsert_next d line r (hok r (by simp))
    have htl : ∀ r2 ∈ tl, rowOk r2 = true := fun r2 hr2 => hok r2 (by simp [hr2])
    obtain ⟨p, hp, hps⟩ := hex
    simp only [runImport]
    rcases hstep with ⟨hfind, heq⟩ | ⟨e, hfind, heq⟩
    · rw [heq]
      exact ih _ (line + 1) s0 htl ⟨p, List.mem_append_left _ hp, hps⟩
    · rw [heq]
      refine ih _ (line + 1) s0 htl
        ⟨(fun q => if q.id == e.id then overwriteFromPayload q c else q) p,
         List.mem_map_of_mem _ hp, ?_⟩
      by_cases hq : p.id == e.id <;> simp [hq, ov_sku, hps]

/-- After an all-coercing upsert apply run, every row's sku is present in
the catalog. -/
theorem runImport_upsert_sku_present (rows : List RawRow) :
    ∀ (d : Db) (line : Nat), (∀ r ∈ rows, rowOk r = true) →
      ∀ r ∈ rows, ∃ p ∈ (runImport "upsert" true noConflict d line rows).1.products,
        p.sku = strTrim r.sku := by
  induction rows with
  | nil => intro d line _ r hr; cases hr
  | cons r1 tl ih =>
    intro d line hok r hr
    obtain ⟨c, hval, hstep⟩ := importRow_upsert_next d line r1 (hok r1 (by simp))
    have hsku := validate_sku_eq _ _ _ hval
    have htl : ∀ r2 ∈ tl, rowOk r2 = true := fun r2 hr2 => hok r2 (by simp [hr2])
    simp only [runImport]
    rcases List.mem_cons.mp hr with hr1 | hrtl
    · subst hr1
      rcases hstep with ⟨hfind, heq⟩ | ⟨e, hfind, heq⟩
      · rw [heq]
        refine runImport_upsert_sku_mono tl _ (line + 1) (strTrim r.sku) htl
          ⟨productOfPayload d c, List.mem_append_right _ (by simp), ?_⟩
        show c.sku = strTrim r.sku
        exact hsku
      · rw [heq]
        have hesku : e.sku = c.sku := by
          have := List.find?_some hfind
          simpa using this
        refine runImport_upsert_sku_mono tl _ (line + 1) (strTrim r.sku) htl
          ⟨(fun q => if q.id == e.id then overwriteFromPayload q c else q) e,
           List.mem_map_of_mem _ (List.mem_of_find?_eq_some hfind), ?_⟩
        simp [ov_sku, hesku, hsku]
    · rcases hstep with ⟨hfind, heq⟩ | ⟨e, hfind, heq⟩
      · rw [heq]
        exact ih _ (line + 1) htl r hrtl
      · rw [heq]
        exact ih _ (line + 1) htl r hrtl


/-- Splitting the last-occurrence lookup at a cons. -/
theorem lastFor_cons (r : RawRow) (tl : List RawRow) (s : String) :
    lastFor (r :: tl) s =
      (lastFor tl s).or (List.find? (fun r2 => strTrim r2.sku == s) [r]) := by
  unfold lastFor
  rw [List.reverse_cons, List.find?_append]

/-- A row found by the last-occurrence lookup belongs to the batch. -/
theorem lastFor_mem (rows : List RawRow) (s : String) (r : RawRow)
    (h : lastFor rows s = some r) : r ∈ rows := by
  unfold lastFor at h
  have := List.mem_of_find?_eq_some h
  simpa using this

/-- An all-coercing upsert apply run over a catalog already containing
every row's sku classifies every row `update` and its net catalog effect
is the last-occurrence overwrite `lastUpd`. -/
theorem runImport_upsert_allPresent (rows : List RawRow) :
    ∀ (d : Db) (line : Nat), d.Wf → (∀ r ∈ rows, rowOk r = true) →
      (∀ r ∈ rows, ∃ p ∈ d.products, p.sku = strTrim r.sku) →
      (runImport "upsert" true noConflict d line rows).1 = lastUpd d rows
        ∧ ∀ pr ∈ (runImport "upsert" true noConflict d line rows).2.1,
            pr.action = .update := by
  induction rows with
  | nil =>
    intro d line _ _ _
    exact ⟨(lastUpd_nil d).symm, by intro pr hpr; cases hpr⟩
  | cons r1 tl ih =>
    intro d line hwf hok hpres
    obtain ⟨c, hval, hstep⟩ := importRow_upsert_next d line r1 (hok r1 (by simp))
    have hsku := validate_sku_eq _ _ _ hval
    have htl : ∀ r2 ∈ tl, rowOk r2 = true := fun r2 hr2 => hok r2 (by simp [hr2])
    rcases hstep with ⟨hfind, heq⟩ | ⟨e, hfind, heq⟩
    · exfalso
      obtain ⟨p, hp, hps⟩ := hpres r1 (by simp)
      have := List.find?_eq_none.mp hfind p hp
      rw [hps, ← hsku] at this
      simp at this
    · have hbysku := upd_by_id_eq_by_sku d c e hwf hfind
      set dup : Db := { d with products := (d.products.map
          (fun p => if p.id == e.id then overwriteFromPayload p c else p)) } with hdup
      have hdup2 : dup = { d with products := (d.products.map
          (fun p => if p.sku == c.sku then overwriteFromPayload p c else p)) } := by
        rw [hdup, hbysku]
      have hwf2 : dup.Wf := wf_update d c e hwf
      have hpres2 : ∀ r2 ∈ tl, ∃ p ∈ dup.products, p.sku = strTrim r2.sku := by
        intro r2 hr2
        obtain ⟨p, hp, hps⟩ := hpres r2 (by simp [hr2])
        refine ⟨(fun q => if q.id == e.id then overwriteFromPayload q c else q) p,
          List.mem_map_of_mem _ hp, ?_⟩
        by_cases hq : p.id == e.id <;> simp [hq, ov_sku, hps]
      obtain ⟨ih1, ih2⟩ := ih dup (line + 1) hwf2 htl hpres2
      constructor
      · show (let step := importRow "upsert" true noConflict d line r1
              let rest := runImport "upsert" true noConflict step.1 (line + 1) tl
              (rest.1, step.2.1 :: rest.2.1, addSummary step.2.2 rest.2.2)).1 = _
        rw [heq]
        show (runImport "upsert" true noConflict dup (line + 1) tl).1 = _
        rw [ih1, hdup2]
        exact lastUpd_cons d r1 tl c hval htl
      · intro pr hpr
        have hshape : (runImport "upsert" true noConflict d line (r1 :: tl)).2.1 =
            (⟨line, some c.sku, .update, []⟩ : PreviewRow)
              :: (runImport "upsert" true noConflict dup (line + 1) tl).2.1 := by
          show (let step := importRow "upsert" true noConflict d line r1
                let rest := runImport "upsert" true noConflict step.1 (line + 1) tl
                (rest.1, step.2.1 :: rest.2.1, addSummary step.2.2 rest.2.2)).2.1 = _
          rw [heq]
        rw [hshape] at hpr
        rcases List.mem_cons.mp hpr with h1 | h2
        · rw [h1]
        · exact ih2 pr h2

/-- After an all-coercing upsert apply run, every catalog product whose
sku occurs in the batch holds the coerced fields of the batch's last row
for that sku (overwriting it again with those fields is the identity), and
every other product was already in the catalog. -/
theorem runImport_upsert_final_vals (rows : List RawRow) :
    ∀ (d : Db) (line : Nat), d.Wf → (∀ r ∈ rows, rowOk r = true) →
      ∀ p2 ∈ (runImport "upsert" true noConflict d line rows).1.products,
        (∀ r2 c2, lastFor rows p2.sku = some r2 →
          validateProductCreate (strTrim r2.sku) r2 = some c2 →
          overwriteFromPayload p2 c2 = p2)
        ∧ (lastFor rows p2.sku = none → p2 ∈ d.products) := by
  induction rows with
  | nil =>
    intro d line _ _ p2 hp2
    exact ⟨(by intro r2 c2 h _; cases h), fun _ => hp2⟩
  | cons r1 tl ih =>
    intro d line hwf hok p2 hp2
    obtain ⟨c, hval, hstep⟩ := importRow_upsert_next d line r1 (hok r1 (by simp))
    have hsku := validate_sku_eq _ _ _ hval
    have htl : ∀ r2 ∈ tl, rowOk r2 = true := fun r2 hr2 => hok r2 (by simp [hr2])
    have hrun : (runImport "upsert" true noConflict d line (r1 :: tl)).1 =
        (runImport "upsert" true noConflict
          (importRow "upsert" true noConflict d line r1).1 (line + 1) tl).1 := rfl
    rcases hstep with ⟨hfind, heq⟩ | ⟨e, hfind, heq⟩
    · -- create step
      set dcr : Db := { d with products := d.products ++ [productOfPayload d c],
                               nextProductId := d.nextProductId + 1 } with hdcr
      have hwf2 : dcr.Wf := wf_create d c hwf hfind
      have hp2' : p2 ∈ (runImport "upsert" true noConflict dcr (line + 1) tl).1.products := by
        rw [hrun, heq] at hp2
        exact hp2
      obtain ⟨ih1, ih2⟩ := ih dcr (line + 1) hwf2 htl p2 hp2'
      rw [lastFor_cons]
      cases hlast : lastFor tl p2.sku with
      | some r2 =>
        refine ⟨?_, by intro h; cases h⟩
        intro r3 c3 h3 hval3
        simp only [Option.or] at h3
        rw [h3] at hlast
        exact ih1 r3 c3 hlast hval3
      | none =>
        have hmem : p2 ∈ dcr.products := ih2 hlast
        by_cases hq : p2.sku = c.sku
        · have hp2new : p2 = productOfPayload d c := by
            rcases List.mem_append.mp hmem with hl | hr
            · exfalso
              have := List.find?_eq_none.mp hfind p2 hl
              rw [hq] at this
              simp at this
            · simpa using hr
          have hone : List.find? (fun r2 => strTrim r2.sku == p2.sku) [r1] = some r1 := by
            have : (strTrim r1.sku == p2.sku) = true := by
              simp [hq, ← hsku]
            simp [List.find?, this]
          refine ⟨?_, ?_⟩
          · intro r3 c3 h3 hval3
            simp only [Option.or, hone] at h3
            cases h3
            rw [hval] at hval3
            cases hval3
            rw [hp2new]
            rfl
          · intro hcontra
            simp only [Option.or, hone] at hcontra
            cases hcontra
        · have hone : List.find? (fun r2 => strTrim r2.sku == p2.sku) [r1] = none := by
            have : (strTrim r1.sku == p2.sku) = false := by
              rw [← hsku]
              simp
              intro hcontra
              exact hq hcontra.symm
            simp [List.find?, this]
          refine ⟨?_, ?_⟩
          · intro r3 c3 h3 hval3
            simp only [Option.or, hone] at h3
            cases h3
          · intro _
            rcases List.mem_append.mp hmem with hl | hr
            · exact hl
            · exfalso
              have : p2.sku = c.sku := by
                rw [List.mem_singleton.mp hr]
                rfl
              exact hq this
    · -- update step
      set dup : Db := { d with products := (d.products.map
          (fun p => if p.id == e.id then overwriteFromPayload p c else p)) } with hdup
      have hwf2 : dup.Wf := wf_update d c e hwf
      have he := List.mem_of_find?_eq_some hfind
      have hesku : e.sku = c.sku := by
        have := List.find?_some hfind
        simpa using this
      have hp2' : p2 ∈ (runImport "upsert" true noConflict dup (line + 1) tl).1.products := by
        rw [hrun, heq] at hp2
        exact hp2
      obtain ⟨ih1, ih2⟩ := ih dup (line + 1) hwf2 htl p2 hp2'
      rw [lastFor_cons]
      cases hlast : lastFor tl p2.sku with
      | some r2 =>
        refine ⟨?_, by intro h; cases h⟩
        intro r3 c3 h3 hval3
        simp only [Option.or] at h3
        rw [h3] at hlast
        exact ih1 r3 c3 hlast hval3
      | none =>
        have hmem : p2 ∈ dup.products := ih2 hlast
        obtain ⟨q, hqmem, hqeq⟩ := List.mem_map.mp hmem
        by_cases hq : p2.sku = c.sku
        · have hp2form : overwriteFromPayload p2 c = p2 := by
            by_cases hqid : (q.id == e.id) = true
            · rw [if_pos hqid] at hqeq
              rw [← hqeq, ov_ov]
            · rw [if_neg hqid] at hqeq
              exfalso
              have hqsku : q.sku = c.sku := by
                rw [hqeq, hq]
              have hqe : q = e := List.inj_on_of_nodup_map hwf.skus_nodup hqmem he
                (by rw [hqsku, hesku])
              rw [hqe] at hqid
              simp at hqid
          have hone : List.find? (fun r2 => strTrim r2.sku == p2.sku) [r1] = some r1 := by
            have : (strTrim r1.sku == p2.sku) = true := by
              simp [hq, ← hsku]
            simp [List.find?, this]
          refine ⟨?_, ?_⟩
          · intro r3 c3 h3 hval3
            simp only [Option.or, hone] at h3
            cases h3
            rw [hval] at hval3
            cases hval3
            exact hp2form
          · intro hcontra
            simp only [Option.or, hone] at hcontra
            cases hcontra
        · have hone : List.find? (fun r2 => strTrim r2.sku == p2.sku) [r1] = none := by
            have : (strTrim r1.sku == p2.sku) = false := by
              rw [← hsku]
              simp
              intro hcontra
              exact hq hcontra.symm
            simp [List.find?, this]
          refine ⟨?_, ?_⟩
          · intro r3 c3 h3 hval3
            simp only [Option.or, hone] at h3
            cases h3
          · intro _
            by_cases hqid : (q.id == e.id) = true
            · exfalso
              rw [if_pos hqid] at hqeq
              have : p2.sku = c.sku := by
                rw [← hqeq, ov_sku]
                have hqe : q = e := List.inj_on_of_nodup_map hwf.ids_nodup hqmem he
                  (by simpa using hqid)
                rw [hqe, hesku]
              exact hq this
            · rw [if_neg hqid] at hqeq
              rw [← hqeq]
              exact hqmem


/-- C3: running the same all-coercing import twice with `apply=true` and
`mode=upsert` classifies, on the second run, every row as `update` (none
as `create`), and the catalog state after the second run equals the state
after the first run. -/
theorem upsert_import_idempotent (db : Db) (rows : List RawRow)
    (hwf : db.Wf) (hok : ∀ r ∈ rows, rowOk r = true) :
    (∀ pr ∈ (runImport "upsert" true noConflict
        (runImport "upsert" true noConflict db 2 rows).1 2 rows).2.1,
      pr.action = .update)
    ∧ (runImport "upsert" true noConflict
        (runImport "upsert" true noConflict db 2 rows).1 2 rows).1
      = (runImport "upsert" true noConflict db 2 rows).1 := by
  set d1 := (runImport "upsert" true noConflict db 2 rows).1 with hd1
  have hwf1 : d1.Wf := runImport_upsert_wf rows db 2 hwf hok
  have hpres : ∀ r ∈ rows, ∃ p ∈ d1.products, p.sku = strTrim r.sku :=
    runImport_upsert_sku_present rows db 2 hok
  obtain ⟨heq, hacts⟩ := runImport_upsert_allPresent rows d1 2 hwf1 hok hpres
  refine ⟨hacts, ?_⟩
  rw [heq]
  have hvals := runImport_upsert_final_vals rows db 2 hwf hok
  unfold lastUpd
  rw [Db.ext_iff]
  refine ⟨?_, rfl, rfl, rfl, rfl⟩
  show d1.products.map _ = d1.products
  have hid : ∀ p ∈ d1.products,
      (match lastFor rows p.sku with
       | some r2 =>
         match validateProductCreate (strTrim r2.sku) r2 with
         | some c2 => overwriteFromPayload p c2
         | none => p
       | none => p) = p := by
    intro p hp
    cases hlast : lastFor rows p.sku with
    | none => rfl
    | some r2 =>
      have hr2 : r2 ∈ rows := lastFor_mem rows p.sku r2 hlast
      obtain ⟨hne2, c2, hval2⟩ := rowOk_elim r2 (hok r2 hr2)
      simp only [hval2]
      exact (hvals p hp).1 r2 c2 hlast hval2
  rw [List.map_congr_left hid]
  exact List.map_id d1.products

/-- C3 witness: for a concrete two-row CSV over the empty store, the
second upsert apply run classifies both rows `update` and leaves the
catalog exactly as the first run left it. -/
theorem upsert_import_idempotent_witness :
    (∀ pr ∈ (runImport "upsert" true noConflict
        (runImport "upsert" true noConflict emptyDb 2 [sampleRow, sampleRow2]).1 2
        [sampleRow, sampleRow2]).2.1, pr.action = .update)
    ∧ (runImport "upsert" true noConflict
        (runImport "upsert" true noConflict emptyDb 2 [sampleRow, sampleRow2]).1 2
        [sampleRow, sampleRow2]).1
      = (runImport "upsert" true noConflict emptyDb 2 [sampleRow, sampleRow2]).1 :=
  upsert_import_idempotent emptyDb [sampleRow, sampleRow2]
    ⟨by decide, by decide, by decide⟩ (by decide)

end Estoque
